import Mathlib

/-!
Shallow embedding of `tf_image_segmentation/utils/augmentation.py`, the
function `scale_jittering_tensor_with_fixed_size_output`.

Modelling choices:
- A tensor of shape (H, W, C) is a `Tensor3`: the three sizes plus a total
  data function `ℕ → ℕ → ℕ → ℤ`; only indices below the sizes are meaningful.
- TensorFlow float arithmetic on the scale factors is modelled exactly over ℚ.
- `tf.round` rounds half to even (bankers rounding), modelled by
  `roundHalfToEven`.
- `tf.image.resize_nearest_neighbor` (align_corners is false by default)
  maps output index `i` to input index `min (⌊i * inSize / outSize⌋) (inSize - 1)`,
  and the op raises unless the input and output spatial sizes are positive:
  failure is modelled as `none`.
- `tf.image.resize_image_with_crop_or_pad` center-crops or center-pads with
  zero fill; it raises on a non-positive target size, modelled as `none`.
-/

/-- A rank-3 tensor of shape (H, W, C) over ℤ, as a total data function. -/
structure Tensor3 where
  H : ℕ
  W : ℕ
  C : ℕ
  data : ℕ → ℕ → ℕ → ℤ

/-- Pointwise map over the entries of a tensor (shape unchanged). -/
def Tensor3.map (t : Tensor3) (f : ℤ → ℤ) : Tensor3 :=
  { t with data := fun i j c => f (t.data i j c) }

/-- Source index used by TF1 nearest-neighbor resize with align_corners false:
`min (floor (i * inSize / outSize)) (inSize - 1)`. -/
def nnIndex (inSize outSize i : ℕ) : ℕ :=
  min (i * inSize / outSize) (inSize - 1)

/-- `tf.image.resize_nearest_neighbor`: nearest-neighbor resample of the two
spatial axes to `(oh, ow)`; the op requires positive input and output sizes. -/
def resize_nearest_neighbor (t : Tensor3) (oh ow : ℕ) : Option Tensor3 :=
  if oh = 0 ∨ ow = 0 ∨ t.H = 0 ∨ t.W = 0 then none
  else some { H := oh, W := ow, C := t.C,
              data := fun i j c => t.data (nnIndex t.H oh i) (nnIndex t.W ow j) c }

/-- One axis of center crop-or-pad: for input length `n` fitted to target `t`,
the input index that output index `i` reads, or `none` when `i` lies in the
zero padding.  The offsets are those of TF's `resize_image_with_crop_or_pad`:
crop offset `(n - t) / 2` (0 when padding), pad offset `(t - n) / 2`
(0 when cropping), retained length `min t n`. -/
def cropPadIndex (n t i : ℕ) : Option ℕ :=
  let offset_crop := (n - t) / 2
  let offset_pad := (t - n) / 2
  if offset_pad ≤ i ∧ i < offset_pad + min t n then
    some (i - offset_pad + offset_crop)
  else none

/-- `tf.image.resize_image_with_crop_or_pad`: center crop or center pad (zero
fill) each spatial axis to the target size; raises on a non-positive target. -/
def resize_image_with_crop_or_pad (x : Tensor3) (th tw : ℕ) : Option Tensor3 :=
  if th = 0 ∨ tw = 0 then none
  else some { H := th, W := tw, C := x.C,
              data := fun i j c =>
                match cropPadIndex x.H th i, cropPadIndex x.W tw j with
                | some a, some b => x.data a b c
                | _, _ => 0 }

/-- `tf.round`: round to the nearest integer, ties to even. -/
def roundHalfToEven (q : ℚ) : ℤ :=
  if q - ⌊q⌋ < 1/2 then ⌊q⌋
  else if 1/2 < q - ⌊q⌋ then ⌊q⌋ + 1
  else if ⌊q⌋ % 2 = 0 then ⌊q⌋ else ⌊q⌋ + 1

/-- `tf.reduce_min(output_shape / input_shape_float)`: the smaller of the two
per-axis fit scales. -/
def scales_min (h w oh ow : ℕ) : ℚ :=
  min ((oh : ℚ) / (h : ℚ)) ((ow : ℚ) / (w : ℚ))

/-- `final_scale = tf.reduce_min(scales) * rand_var`. -/
def final_scale (h w oh ow : ℕ) (r : ℚ) : ℚ :=
  scales_min h w oh ow * r

/-- `scaled_input_shape = tf.to_int32(tf.round(input_shape_float * final_scale))`,
per axis (a negative rounded value is taken to 0, where the resize op then
raises). -/
def scaled_input_shape (h w oh ow : ℕ) (r : ℚ) : ℕ × ℕ :=
  ((roundHalfToEven ((h : ℚ) * final_scale h w oh ow r)).toNat,
   (roundHalfToEven ((w : ℚ) * final_scale h w oh ow r)).toNat)

/-- The final masking step: `cropped + to_int32(cropped == 0) * (mask_out + 1) - 1`. -/
def mask_out_step (t : Tensor3) (mask_out_number : ℤ) : Tensor3 :=
  { t with data := fun i j c =>
      t.data i j c +
        (if t.data i j c = 0 then (1 : ℤ) else 0) * (mask_out_number + 1) - 1 }

/-- `scale_jittering_tensor_with_fixed_size_output` from
`tf_image_segmentation/utils/augmentation.py`, for a fixed value `rand_var` of
the one uniform draw.  The steps, in source order: compute the fit scale from
the image shape, multiply by the draw, round to the scaled shape;
nearest-neighbor resize image and raw annotation to that shape; shift the
resized annotation by one; center crop-or-pad both to the output shape
(zero fill); mask out the zero (padding) pixels of the annotation with
`mask_out_number` while shifting everything back down by one. -/
def scale_jittering_tensor_with_fixed_size_output
    (img_tensor annotation_tensor : Tensor3) (output_h output_w : ℕ)
    (rand_var : ℚ) (mask_out_number : ℤ) : Option (Tensor3 × Tensor3) :=
  let s := scaled_input_shape img_tensor.H img_tensor.W output_h output_w rand_var
  (resize_nearest_neighbor img_tensor s.1 s.2).bind fun resized_img =>
    (resize_nearest_neighbor annotation_tensor s.1 s.2).bind fun resized_ann =>
      let annotation_shifted_classes := resized_ann.map fun v => v + 1
      (resize_image_with_crop_or_pad resized_img output_h output_w).bind
        fun cropped_padded_img =>
          (resize_image_with_crop_or_pad annotation_shifted_classes
              output_h output_w).bind fun cropped_padded_ann =>
            some (cropped_padded_img, mask_out_step cropped_padded_ann mask_out_number)

/-- Modelled from the spec (section 4.1, steps 1 and 6): the same pipeline but
with the shift by one applied to the annotation BEFORE the nearest-neighbor
resize, as the spec states it, rather than after as the code does. -/
def scale_jittering_spec_order
    (img_tensor annotation_tensor : Tensor3) (output_h output_w : ℕ)
    (rand_var : ℚ) (mask_out_number : ℤ) : Option (Tensor3 × Tensor3) :=
  let s := scaled_input_shape img_tensor.H img_tensor.W output_h output_w rand_var
  let annotation_shifted_first := annotation_tensor.map fun v => v + 1
  (resize_nearest_neighbor img_tensor s.1 s.2).bind fun resized_img =>
    (resize_nearest_neighbor annotation_shifted_first s.1 s.2).bind
      fun resized_shifted =>
        (resize_image_with_crop_or_pad resized_img output_h output_w).bind
          fun cropped_padded_img =>
            (resize_image_with_crop_or_pad resized_shifted
                output_h output_w).bind fun cropped_padded_ann =>
              some (cropped_padded_img, mask_out_step cropped_padded_ann mask_out_number)

/-- The cropped-and-padded shifted annotation value at output pixel (i, j, c),
for intermediate (scaled) shape (s1, s2): the claim's `croppedAnnotation`. -/
def cropped_shifted_val (ann : Tensor3) (s1 s2 oh ow i j c : ℕ) : ℤ :=
  match cropPadIndex s1 oh i, cropPadIndex s2 ow j with
  | some a, some b => ann.data (nnIndex ann.H s1 a) (nnIndex ann.W s2 b) c + 1
  | _, _ => 0

/-- Resize to (s1, s2) then center crop-or-pad to (oh, ow), as one data map. -/
def fitted_output (t : Tensor3) (s1 s2 oh ow : ℕ) : Tensor3 :=
  { H := oh, W := ow, C := t.C,
    data := fun i j c =>
      match cropPadIndex s1 oh i, cropPadIndex s2 ow j with
      | some a, some b => t.data (nnIndex t.H s1 a) (nnIndex t.W s2 b) c
      | _, _ => 0 }

theorem Tensor3.map_H (t : Tensor3) (f : ℤ → ℤ) : (t.map f).H = t.H := rfl

theorem Tensor3.map_W (t : Tensor3) (f : ℤ → ℤ) : (t.map f).W = t.W := rfl

theorem Tensor3.map_C (t : Tensor3) (f : ℤ → ℤ) : (t.map f).C = t.C := rfl

theorem nnIndex_lt (n s i : ℕ) (hn : n ≠ 0) : nnIndex n s i < n := by
  have h := Nat.min_le_right (i * n / s) (n - 1)
  unfold nnIndex
  omega

theorem cropPadIndex_lt {n t i a : ℕ} (h : cropPadIndex n t i = some a) : a < n := by
  simp only [cropPadIndex] at h
  split at h
  · rename_i hc
    injection h with h
    omega
  · exact absurd h (by simp)

theorem cropPadIndex_self (n i : ℕ) (hi : i < n) : cropPadIndex n n i = some i := by
  simp only [cropPadIndex]
  rw [if_pos (by omega)]
  congr 1
  omega

theorem nnIndex_self (n i : ℕ) (hi : i < n) : nnIndex n n i = i := by
  unfold nnIndex
  rw [Nat.mul_div_cancel _ (by omega)]
  omega

/-- The central run lemma: when the scaled shape is (s1, s2) with both axes
positive and all spatial sizes are positive, the transform succeeds and its
two outputs are the fitted image and the masked fitted shifted annotation. -/
theorem run_eq (img ann : Tensor3) (oh ow : ℕ) (r : ℚ) (m : ℤ) (s1 s2 : ℕ)
    (hs : scaled_input_shape img.H img.W oh ow r = (s1, s2))
    (h1 : s1 ≠ 0) (h2 : s2 ≠ 0) (hH : img.H ≠ 0) (hW : img.W ≠ 0)
    (haH : ann.H ≠ 0) (haW : ann.W ≠ 0) (hoh : oh ≠ 0) (how : ow ≠ 0) :
    scale_jittering_tensor_with_fixed_size_output img ann oh ow r m =
      some (fitted_output img s1 s2 oh ow,
        mask_out_step (fitted_output (ann.map fun v => v + 1) s1 s2 oh ow) m) := by
  simp only [scale_jittering_tensor_with_fixed_size_output, hs,
    resize_nearest_neighbor, resize_image_with_crop_or_pad, Tensor3.map]
  rw [if_neg (by simp [h1, h2, hH, hW]), if_neg (by simp [h1, h2, haH, haW])]
  simp only [Option.bind_some, Option.some_bind]
  rw [if_neg (by simp [hoh, how]), if_neg (by simp [hoh, how])]
  simp only [Option.some_bind]
  rfl

theorem roundHalfToEven_natCast (n : ℕ) : roundHalfToEven (n : ℚ) = n := by
  unfold roundHalfToEven
  rw [Int.floor_natCast]
  rw [if_pos (by norm_num)]

theorem roundHalfToEven_nonneg (q : ℚ) (hq : 0 ≤ q) : 0 ≤ roundHalfToEven q := by
  have h0 : 0 ≤ ⌊q⌋ := Int.floor_nonneg.mpr hq
  unfold roundHalfToEven
  split_ifs <;> omega

theorem roundHalfToEven_dist (q : ℚ) : |(roundHalfToEven q : ℚ) - q| ≤ 1/2 := by
  have h1 : (⌊q⌋ : ℚ) ≤ q := Int.floor_le q
  have h2 : q < ⌊q⌋ + 1 := Int.lt_floor_add_one q
  unfold roundHalfToEven
  split_ifs with a b c <;> rw [abs_le] <;> constructor <;> push_cast <;> linarith

theorem scales_min_self (h w : ℕ) (hh : h ≠ 0) (hw : w ≠ 0) :
    scales_min h w h w = 1 := by
  unfold scales_min
  rw [div_self (by exact_mod_cast hh), div_self (by exact_mod_cast hw), min_self]

theorem scaled_input_shape_self (h w : ℕ) (hh : h ≠ 0) (hw : w ≠ 0) :
    scaled_input_shape h w h w 1 = (h, w) := by
  unfold scaled_input_shape final_scale
  rw [scales_min_self h w hh hw]
  norm_num [roundHalfToEven_natCast]

theorem Tensor3.map_data (t : Tensor3) (f : ℤ → ℤ) (i j c : ℕ) :
    (t.map f).data i j c = f (t.data i j c) := rfl

theorem resize_nearest_neighbor_map (t : Tensor3) (f : ℤ → ℤ) (a b : ℕ) :
    resize_nearest_neighbor (t.map f) a b =
      (resize_nearest_neighbor t a b).map (fun u => u.map f) := by
  simp only [resize_nearest_neighbor, Tensor3.map]
  split_ifs <;> rfl

/-- C6: the spec's order of operations (shift the annotation by one, then
nearest-neighbor resize) yields the same result as the code's order
(resize, then shift): the shift commutes with nearest-neighbor resampling,
so the two pipelines agree on every input and every fixed draw. -/
theorem C6_shift_commutes_with_resize (img ann : Tensor3) (oh ow : ℕ) (r : ℚ)
    (m : ℤ) :
    scale_jittering_spec_order img ann oh ow r m =
      scale_jittering_tensor_with_fixed_size_output img ann oh ow r m := by
  simp only [scale_jittering_spec_order,
    scale_jittering_tensor_with_fixed_size_output]
  rw [resize_nearest_neighbor_map]
  cases resize_nearest_neighbor img
      (scaled_input_shape img.H img.W oh ow r).1
      (scaled_input_shape img.H img.W oh ow r).2 <;>
    cases resize_nearest_neighbor ann
        (scaled_input_shape img.H img.W oh ow r).1
        (scaled_input_shape img.H img.W oh ow r).2 <;>
      rfl

/-- C8: for a fixed value of the one random draw, the transform is a
deterministic function of (image, annotation, output shape, draw, mask-out
number): equal inputs give equal outputs. -/
theorem C8_deterministic (img1 img2 ann1 ann2 : Tensor3) (oh1 oh2 ow1 ow2 : ℕ)
    (r1 r2 : ℚ) (m1 m2 : ℤ) (hi : img1 = img2) (ha : ann1 = ann2)
    (hoh : oh1 = oh2) (how : ow1 = ow2) (hr : r1 = r2) (hm : m1 = m2) :
    scale_jittering_tensor_with_fixed_size_output img1 ann1 oh1 ow1 r1 m1 =
      scale_jittering_tensor_with_fixed_size_output img2 ann2 oh2 ow2 r2 m2 := by
  rw [hi, ha, hoh, how, hr, hm]

/-- C7: the intermediate shape both arrays are resized to is, per axis, the
input axis length times the minimum of the two independent per-axis fit
scales times the single draw, rounded to a nearest integer (distance at most
one half). -/
theorem C7_scaled_shape_formula (h w oh ow : ℕ) (r : ℚ) (hr : 0 ≤ r) :
    (scaled_input_shape h w oh ow r).1 =
      (roundHalfToEven
        ((h : ℚ) * (min ((oh : ℚ) / (h : ℚ)) ((ow : ℚ) / (w : ℚ)) * r))).toNat ∧
    (scaled_input_shape h w oh ow r).2 =
      (roundHalfToEven
        ((w : ℚ) * (min ((oh : ℚ) / (h : ℚ)) ((ow : ℚ) / (w : ℚ)) * r))).toNat ∧
    |((scaled_input_shape h w oh ow r).1 : ℚ) -
        (h : ℚ) * (min ((oh : ℚ) / (h : ℚ)) ((ow : ℚ) / (w : ℚ)) * r)| ≤ 1/2 ∧
    |((scaled_input_shape h w oh ow r).2 : ℚ) -
        (w : ℚ) * (min ((oh : ℚ) / (h : ℚ)) ((ow : ℚ) / (w : ℚ)) * r)| ≤ 1/2 := by
  have hmin : 0 ≤ min ((oh : ℚ) / (h : ℚ)) ((ow : ℚ) / (w : ℚ)) * r :=
    mul_nonneg
      (le_min (div_nonneg (Nat.cast_nonneg _) (Nat.cast_nonneg _))
        (div_nonneg (Nat.cast_nonneg _) (Nat.cast_nonneg _))) hr
  have hx1 : 0 ≤ roundHalfToEven
      ((h : ℚ) * (min ((oh : ℚ) / (h : ℚ)) ((ow : ℚ) / (w : ℚ)) * r)) :=
    roundHalfToEven_nonneg _ (mul_nonneg (Nat.cast_nonneg _) hmin)
  have hx2 : 0 ≤ roundHalfToEven
      ((w : ℚ) * (min ((oh : ℚ) / (h : ℚ)) ((ow : ℚ) / (w : ℚ)) * r)) :=
    roundHalfToEven_nonneg _ (mul_nonneg (Nat.cast_nonneg _) hmin)
  refine ⟨rfl, rfl, ?_, ?_⟩
  · have e : (((scaled_input_shape h w oh ow r).1 : ℕ) : ℚ) =
        ((roundHalfToEven
          ((h : ℚ) * (min ((oh : ℚ) / (h : ℚ)) ((ow : ℚ) / (w : ℚ)) * r)) : ℤ) : ℚ) := by
      show (((roundHalfToEven _).toNat : ℕ) : ℚ) = _
      exact_mod_cast congrArg (fun z : ℤ => (z : ℚ)) (Int.toNat_of_nonneg hx1)
    rw [e]
    exact roundHalfToEven_dist _
  · have e : (((scaled_input_shape h w oh ow r).2 : ℕ) : ℚ) =
        ((roundHalfToEven
          ((w : ℚ) * (min ((oh : ℚ) / (h : ℚ)) ((ow : ℚ) / (w : ℚ)) * r)) : ℤ) : ℚ) := by
      show (((roundHalfToEven _).toNat : ℕ) : ℚ) = _
      exact_mod_cast congrArg (fun z : ℤ => (z : ℚ)) (Int.toNat_of_nonneg hx2)
    rw [e]
    exact roundHalfToEven_dist _

/-- Scenario input (spec section 8): a 2x2x1 image of ones. -/
def img9 : Tensor3 := { H := 2, W := 2, C := 1, data := fun _ _ _ => 1 }

/-- Scenario input (spec section 8): a 2x2x1 annotation, every pixel class 1. -/
def ann9 : Tensor3 := { H := 2, W := 2, C := 1, data := fun _ _ _ => 1 }

theorem scaled_shape_img9 : scaled_input_shape 2 2 4 4 (1/2) = (2, 2) := by
  norm_num [scaled_input_shape, final_scale, scales_min, roundHalfToEven]
  decide

theorem run_img9 :
    scale_jittering_tensor_with_fixed_size_output img9 ann9 4 4 (1/2) 255 =
      some (fitted_output img9 2 2 4 4,
        mask_out_step (fitted_output (ann9.map fun v => v + 1) 2 2 4 4) 255) :=
  run_eq img9 ann9 4 4 (1/2) 255 2 2 scaled_shape_img9 (by decide) (by decide)
    (by decide) (by decide) (by decide) (by decide) (by decide) (by decide)

/-- C9: with the 2x2 all-class-1 annotation, output shape (4, 4), and the draw
fixed at 0.5, the output annotation is a centered 2x2 block of class 1
surrounded by a border of the mask-out value (here 255). -/
theorem C9_centered_block_scenario : ∀ i, i < 4 → ∀ j, j < 4 →
    ((scale_jittering_tensor_with_fixed_size_output img9 ann9 4 4 (1/2)
        255).map fun p => p.2.data i j 0) =
      some (if 1 ≤ i ∧ i ≤ 2 ∧ 1 ≤ j ∧ j ≤ 2 then 1 else 255) := by
  intro i hi j hj
  rw [run_img9]
  interval_cases i <;> interval_cases j <;> decide

/-- Witness for C9 at the corner pixel (0, 0), a border pixel. -/
theorem C9_witness :
    ((scale_jittering_tensor_with_fixed_size_output img9 ann9 4 4 (1/2)
        255).map fun p => p.2.data 0 0 0) =
      some (if 1 ≤ 0 ∧ 0 ≤ 2 ∧ 1 ≤ 0 ∧ 0 ≤ 2 then 1 else 255) :=
  C9_centered_block_scenario 0 (by decide) 0 (by decide)

/-- C10 input: a 1x1x1 image. -/
def img10 : Tensor3 := { H := 1, W := 1, C := 1, data := fun _ _ _ => 1 }

/-- C10 input: a 1x1x1 annotation whose only pixel carries the label -1. -/
def ann10 : Tensor3 := { H := 1, W := 1, C := 1, data := fun _ _ _ => -1 }

theorem scaled_shape_img10 : scaled_input_shape 1 1 1 1 1 = (1, 1) :=
  scaled_input_shape_self 1 1 (by decide) (by decide)

theorem run_img10 :
    scale_jittering_tensor_with_fixed_size_output img10 ann10 1 1 1 255 =
      some (fitted_output img10 1 1 1 1,
        mask_out_step (fitted_output (ann10.map fun v => v + 1) 1 1 1 1) 255) :=
  run_eq img10 ann10 1 1 1 255 1 1 scaled_shape_img10 (by decide) (by decide)
    (by decide) (by decide) (by decide) (by decide) (by decide) (by decide)

/-- C10: an annotation pixel holding -1 that survives the resize and crop
(here the whole 1x1 input, output shape (1, 1), draw 1, so pixel (0, 0) is
content, not padding) is silently turned into the mask-out value 255: the
shift by one makes it 0, indistinguishable from padding. -/
theorem C10_negative_label_masked :
    ann10.data 0 0 0 = -1 ∧
    cropPadIndex 1 1 0 = some 0 ∧
    ((scale_jittering_tensor_with_fixed_size_output img10 ann10 1 1 1
        255).map fun p => p.2.data 0 0 0) = some 255 := by
  refine ⟨rfl, by decide, ?_⟩
  rw [run_img10]
  decide

theorem fitted_shifted_eq (ann : Tensor3) (s1 s2 oh ow i j c : ℕ) :
    (fitted_output (ann.map fun v => v + 1) s1 s2 oh ow).data i j c =
      cropped_shifted_val ann s1 s2 oh ow i j c := rfl

theorem cropped_shifted_val_pad (ann : Tensor3) (s1 s2 oh ow i j c : ℕ)
    (hpad : cropPadIndex s1 oh i = none ∨ cropPadIndex s2 ow j = none) :
    cropped_shifted_val ann s1 s2 oh ow i j c = 0 := by
  rcases hpad with h | h
  · simp only [cropped_shifted_val, h]
  · simp only [cropped_shifted_val, h]
    cases cropPadIndex s1 oh i <;> rfl

theorem cropped_shifted_val_content (ann : Tensor3) (s1 s2 oh ow i j c a b : ℕ)
    (ha : cropPadIndex s1 oh i = some a) (hb : cropPadIndex s2 ow j = some b) :
    cropped_shifted_val ann s1 s2 oh ow i j c =
      ann.data (nnIndex ann.H s1 a) (nnIndex ann.W s2 b) c + 1 := by
  simp only [cropped_shifted_val, ha, hb]

/-- C5 input: a 1x10x1 image (all zeros). -/
def img5 : Tensor3 := { H := 1, W := 10, C := 1, data := fun _ _ _ => 0 }

/-- C5 input: a 1x10x1 annotation (all zeros), same spatial shape as `img5`. -/
def ann5 : Tensor3 := { H := 1, W := 10, C := 1, data := fun _ _ _ => 0 }

theorem scaled_shape_img5 : scaled_input_shape 1 10 5 5 (1/10) = (0, 0) := by
  norm_num [scaled_input_shape, final_scale, scales_min, roundHalfToEven]

theorem run_img5_none :
    scale_jittering_tensor_with_fixed_size_output img5 ann5 5 5 (1/10) 255 =
      none := by
  simp only [scale_jittering_tensor_with_fixed_size_output]
  rw [show scaled_input_shape img5.H img5.W 5 5 (1/10) = (0, 0) from
    scaled_shape_img5]
  rfl

/-- C5 counterexample: a 1x10 image and annotation, output shape (5, 5),
scale bounds [1/10, 9/10), draw 1/10 — all the stated shape constraints hold,
yet the rounded intermediate shape is (0, 0) and the nearest-neighbor resize
op raises (the transform does not complete). -/
theorem C5_counterexample :
    1 ≤ img5.H ∧ 1 ≤ img5.W ∧ ann5.H = img5.H ∧ ann5.W = img5.W ∧
    0 < (5 : ℕ) ∧ 0 < (1/10 : ℚ) ∧ (1/10 : ℚ) ≤ 9/10 ∧
    (1/10 : ℚ) ≤ 1/10 ∧ (1/10 : ℚ) < 9/10 ∧
    scale_jittering_tensor_with_fixed_size_output img5 ann5 5 5 (1/10) 255 =
      none :=
  ⟨by decide, by decide, rfl, rfl, by decide, by norm_num, by norm_num,
    le_refl _, by norm_num, run_img5_none⟩

/-- C5 (amended): the transform completes without error for every input
satisfying the shape constraints, PROVIDED additionally the rounded
intermediate shape `scaled_input_shape` is at least 1 on both axes; without
that proviso a zero-sized intermediate resize fails (see the counterexample). -/
theorem C5_amended_no_failure (img ann : Tensor3) (oh ow : ℕ) (r : ℚ) (m : ℤ)
    (s1 s2 : ℕ) (hs : scaled_input_shape img.H img.W oh ow r = (s1, s2))
    (h1 : s1 ≠ 0) (h2 : s2 ≠ 0) (hH : img.H ≠ 0) (hW : img.W ≠ 0)
    (haH : ann.H ≠ 0) (haW : ann.W ≠ 0) (hoh : oh ≠ 0) (how : ow ≠ 0) :
    (scale_jittering_tensor_with_fixed_size_output img ann oh ow r m).isSome =
      true := by
  rw [run_eq img ann oh ow r m s1 s2 hs h1 h2 hH hW haH haW hoh how]
  rfl

/-- Witness for C5 (amended) on the 2x2 scenario input. -/
theorem C5_amended_witness :
    (scale_jittering_tensor_with_fixed_size_output img9 ann9 4 4 (1/2)
      255).isSome = true :=
  C5_amended_no_failure img9 ann9 4 4 (1/2) 255 2 2 scaled_shape_img9
    (by decide) (by decide) (by decide) (by decide) (by decide) (by decide)
    (by decide) (by decide)

/-- C1: whenever the transform returns a pair, the output image has spatial
shape exactly (output_h, output_w) and the input image's channel count, and
the output annotation has spatial shape exactly (output_h, output_w) and the
input annotation's channel count. -/
theorem C1_output_shapes (img ann : Tensor3) (oh ow : ℕ) (r : ℚ) (m : ℤ)
    (p : Tensor3 × Tensor3)
    (hp : scale_jittering_tensor_with_fixed_size_output img ann oh ow r m =
      some p) :
    p.1.H = oh ∧ p.1.W = ow ∧ p.1.C = img.C ∧
    p.2.H = oh ∧ p.2.W = ow ∧ p.2.C = ann.C := by
  by_cases c1 : (scaled_input_shape img.H img.W oh ow r).1 = 0 ∨
      (scaled_input_shape img.H img.W oh ow r).2 = 0 ∨ img.H = 0 ∨ img.W = 0
  · simp only [scale_jittering_tensor_with_fixed_size_output,
      resize_nearest_neighbor, if_pos c1, Option.none_bind] at hp
    cases hp
  by_cases c2 : (scaled_input_shape img.H img.W oh ow r).1 = 0 ∨
      (scaled_input_shape img.H img.W oh ow r).2 = 0 ∨ ann.H = 0 ∨ ann.W = 0
  · simp only [scale_jittering_tensor_with_fixed_size_output,
      resize_nearest_neighbor, if_neg c1, if_pos c2, Option.some_bind,
      Option.none_bind] at hp
    cases hp
  by_cases c3 : oh = 0 ∨ ow = 0
  · simp only [scale_jittering_tensor_with_fixed_size_output,
      resize_nearest_neighbor, if_neg c1, if_neg c2, Option.some_bind,
      resize_image_with_crop_or_pad, if_pos c3, Option.none_bind] at hp
    cases hp
  · push_neg at c1 c2 c3
    rw [run_eq img ann oh ow r m
        (scaled_input_shape img.H img.W oh ow r).1
        (scaled_input_shape img.H img.W oh ow r).2 rfl
        c1.1 c1.2.1 c1.2.2.1 c1.2.2.2 c2.2.2.1 c2.2.2.2 c3.1 c3.2] at hp
    injection hp with hp
    subst hp
    exact ⟨rfl, rfl, rfl, rfl, rfl, rfl⟩

/-- Witness for C1 on the 2x2 scenario input with output shape (4, 4). -/
theorem C1_witness :
    (fitted_output img9 2 2 4 4).H = 4 ∧
    (fitted_output img9 2 2 4 4).W = 4 ∧
    (fitted_output img9 2 2 4 4).C = img9.C ∧
    (mask_out_step (fitted_output (ann9.map fun v => v + 1) 2 2 4 4) 255).H = 4 ∧
    (mask_out_step (fitted_output (ann9.map fun v => v + 1) 2 2 4 4) 255).W = 4 ∧
    (mask_out_step (fitted_output (ann9.map fun v => v + 1) 2 2 4 4) 255).C =
      ann9.C :=
  C1_output_shapes img9 ann9 4 4 (1/2) 255 _ run_img9

theorem mask_out_step_data (ann : Tensor3) (s1 s2 oh ow : ℕ) (m : ℤ)
    (i j c : ℕ) :
    (mask_out_step (fitted_output (ann.map fun v => v + 1) s1 s2 oh ow)
        m).data i j c =
      cropped_shifted_val ann s1 s2 oh ow i j c +
        (if cropped_shifted_val ann s1 s2 oh ow i j c = 0 then 1 else 0) *
          (m + 1) - 1 := rfl

/-- C2: at every output pixel the final annotation value is
`croppedAnnotation + isPad * (mask_out_number + 1) - 1` where
`croppedAnnotation` is the crop-or-padded shifted annotation and `isPad`
tests it for 0; consequently padding pixels come out exactly
`mask_out_number`, and content pixels with a non-negative source label come
out as the original (unshifted) class id of their source pixel. -/
theorem C2_final_annotation_formula (img ann : Tensor3) (oh ow : ℕ) (r : ℚ)
    (m : ℤ) (s1 s2 : ℕ)
    (hs : scaled_input_shape img.H img.W oh ow r = (s1, s2))
    (h1 : s1 ≠ 0) (h2 : s2 ≠ 0) (hH : img.H ≠ 0) (hW : img.W ≠ 0)
    (haH : ann.H ≠ 0) (haW : ann.W ≠ 0) (hoh : oh ≠ 0) (how : ow ≠ 0)
    (i j c : ℕ) :
    ((scale_jittering_tensor_with_fixed_size_output img ann oh ow r m).map
        fun p => p.2.data i j c) =
      some (cropped_shifted_val ann s1 s2 oh ow i j c +
        (if cropped_shifted_val ann s1 s2 oh ow i j c = 0 then 1 else 0) *
          (m + 1) - 1) ∧
    (cropPadIndex s1 oh i = none ∨ cropPadIndex s2 ow j = none →
      ((scale_jittering_tensor_with_fixed_size_output img ann oh ow r m).map
          fun p => p.2.data i j c) = some m) ∧
    (∀ a b, cropPadIndex s1 oh i = some a → cropPadIndex s2 ow j = some b →
      0 ≤ ann.data (nnIndex ann.H s1 a) (nnIndex ann.W s2 b) c →
      ((scale_jittering_tensor_with_fixed_size_output img ann oh ow r m).map
          fun p => p.2.data i j c) =
        some (ann.data (nnIndex ann.H s1 a) (nnIndex ann.W s2 b) c)) := by
  rw [run_eq img ann oh ow r m s1 s2 hs h1 h2 hH hW haH haW hoh how]
  refine ⟨rfl, ?_, ?_⟩
  · intro hpad
    simp only [Option.map_some', mask_out_step_data,
      cropped_shifted_val_pad ann s1 s2 oh ow i j c hpad]
    norm_num
  · intro a b ha hb hval
    simp only [Option.map_some', mask_out_step_data,
      cropped_shifted_val_content ann s1 s2 oh ow i j c a b ha hb]
    rw [if_neg (by omega)]
    congr 1
    ring

/-- Witness for C2 at border pixel (0, 0) of the 2x2 scenario. -/
theorem C2_witness :
    ((scale_jittering_tensor_with_fixed_size_output img9 ann9 4 4 (1/2)
        255).map fun p => p.2.data 0 0 0) =
      some (cropped_shifted_val ann9 2 2 4 4 0 0 0 +
        (if cropped_shifted_val ann9 2 2 4 4 0 0 0 = 0 then 1 else 0) *
          (255 + 1) - 1) :=
  (C2_final_annotation_formula img9 ann9 4 4 (1/2) 255 2 2 scaled_shape_img9
    (by decide) (by decide) (by decide) (by decide) (by decide) (by decide)
    (by decide) (by decide) 0 0 0).1

/-- C3: when the input annotation holds only non-negative class ids (at
channel c), every output annotation value is either the mask-out number or a
value present somewhere in the input annotation: no class id absent from the
input is ever produced. -/
theorem C3_no_spurious_classes (img ann : Tensor3) (oh ow : ℕ) (r : ℚ)
    (m : ℤ) (s1 s2 : ℕ)
    (hs : scaled_input_shape img.H img.W oh ow r = (s1, s2))
    (h1 : s1 ≠ 0) (h2 : s2 ≠ 0) (hH : img.H ≠ 0) (hW : img.W ≠ 0)
    (haH : ann.H ≠ 0) (haW : ann.W ≠ 0) (hoh : oh ≠ 0) (how : ow ≠ 0)
    (c : ℕ) (hval : ∀ a b, a < ann.H → b < ann.W → 0 ≤ ann.data a b c)
    (i j : ℕ) :
    ((scale_jittering_tensor_with_fixed_size_output img ann oh ow r m).map
        fun p => p.2.data i j c) = some m ∨
    ∃ a b, a < ann.H ∧ b < ann.W ∧
      ((scale_jittering_tensor_with_fixed_size_output img ann oh ow r m).map
          fun p => p.2.data i j c) = some (ann.data a b c) := by
  rw [run_eq img ann oh ow r m s1 s2 hs h1 h2 hH hW haH haW hoh how]
  cases ha : cropPadIndex s1 oh i with
  | none =>
    left
    simp only [Option.map_some', mask_out_step_data,
      cropped_shifted_val_pad ann s1 s2 oh ow i j c (Or.inl ha)]
    norm_num
  | some a =>
    cases hb : cropPadIndex s2 ow j with
    | none =>
      left
      simp only [Option.map_some', mask_out_step_data,
        cropped_shifted_val_pad ann s1 s2 oh ow i j c (Or.inr hb)]
      norm_num
    | some b =>
      right
      have hx : 0 ≤ ann.data (nnIndex ann.H s1 a) (nnIndex ann.W s2 b) c :=
        hval (nnIndex ann.H s1 a) (nnIndex ann.W s2 b)
          (nnIndex_lt ann.H s1 a haH) (nnIndex_lt ann.W s2 b haW)
      refine ⟨nnIndex ann.H s1 a, nnIndex ann.W s2 b,
        nnIndex_lt ann.H s1 a haH, nnIndex_lt ann.W s2 b haW, ?_⟩
      simp only [Option.map_some', mask_out_step_data,
        cropped_shifted_val_content ann s1 s2 oh ow i j c a b ha hb]
      rw [if_neg (by omega)]
      congr 1
      ring

/-- Witness for C3 at pixel (0, 0) of the 2x2 scenario. -/
theorem C3_witness :
    ((scale_jittering_tensor_with_fixed_size_output img9 ann9 4 4 (1/2)
        255).map fun p => p.2.data 0 0 0) = some 255 ∨
    ∃ a b, a < ann9.H ∧ b < ann9.W ∧
      ((scale_jittering_tensor_with_fixed_size_output img9 ann9 4 4 (1/2)
          255).map fun p => p.2.data 0 0 0) = some (ann9.data a b 0) :=
  C3_no_spurious_classes img9 ann9 4 4 (1/2) 255 2 2 scaled_shape_img9
    (by decide) (by decide) (by decide) (by decide) (by decide) (by decide)
    (by decide) (by decide) 0 (fun _ _ _ _ => zero_le_one) 0 0

/-- C4: when the output shape equals the input spatial shape and the draw is
1 (the degenerate minScale = maxScale = 1 case), the transform is the
identity on both the image and a non-negatively labelled annotation:
no pixel is turned into the mask-out number. -/
theorem C4_identity (img ann : Tensor3) (m : ℤ)
    (hH : img.H ≠ 0) (hW : img.W ≠ 0) (haH : ann.H = img.H)
    (haW : ann.W = img.W) (c : ℕ)
    (hval : ∀ a b, a < ann.H → b < ann.W → 0 ≤ ann.data a b c)
    (i j : ℕ) (hi : i < img.H) (hj : j < img.W) :
    ((scale_jittering_tensor_with_fixed_size_output img ann img.H img.W 1
        m).map fun p => p.1.data i j c) = some (img.data i j c) ∧
    ((scale_jittering_tensor_with_fixed_size_output img ann img.H img.W 1
        m).map fun p => p.2.data i j c) = some (ann.data i j c) := by
  have hs : scaled_input_shape img.H img.W img.H img.W 1 = (img.H, img.W) :=
    scaled_input_shape_self img.H img.W hH hW
  rw [run_eq img ann img.H img.W 1 m img.H img.W hs hH hW hH hW
    (by rw [haH]; exact hH) (by rw [haW]; exact hW) hH hW]
  constructor
  · simp only [Option.map_some', fitted_output,
      cropPadIndex_self img.H i hi, cropPadIndex_self img.W j hj]
    rw [nnIndex_self img.H i hi, nnIndex_self img.W j hj]
  · have hx : 0 ≤ ann.data i j c := hval i j (by omega) (by omega)
    simp only [Option.map_some', mask_out_step_data,
      cropped_shifted_val_content ann img.H img.W img.H img.W i j c i j
        (cropPadIndex_self img.H i hi) (cropPadIndex_self img.W j hj)]
    rw [haH, haW, nnIndex_self img.H i hi, nnIndex_self img.W j hj]
    rw [if_neg (by omega)]
    congr 1
    ring

/-- Witness for C4 on the 2x2 scenario input at pixel (0, 0). -/
theorem C4_witness :
    ((scale_jittering_tensor_with_fixed_size_output img9 ann9 img9.H img9.W 1
        255).map fun p => p.1.data 0 0 0) = some (img9.data 0 0 0) ∧
    ((scale_jittering_tensor_with_fixed_size_output img9 ann9 img9.H img9.W 1
        255).map fun p => p.2.data 0 0 0) = some (ann9.data 0 0 0) :=
  C4_identity img9 ann9 255 (by decide) (by decide) rfl rfl 0
    (fun _ _ _ _ => zero_le_one) 0 0 (by decide) (by decide)

/-- Witness for C7 at input shape (2, 2), output shape (4, 4), draw 1/2. -/
theorem C7_witness :
    (scaled_input_shape 2 2 4 4 (1/2)).1 =
      (roundHalfToEven (((2 : ℕ) : ℚ) *
        (min (((4 : ℕ) : ℚ) / ((2 : ℕ) : ℚ)) (((4 : ℕ) : ℚ) / ((2 : ℕ) : ℚ)) *
          (1/2)))).toNat ∧
    (scaled_input_shape 2 2 4 4 (1/2)).2 =
      (roundHalfToEven (((2 : ℕ) : ℚ) *
        (min (((4 : ℕ) : ℚ) / ((2 : ℕ) : ℚ)) (((4 : ℕ) : ℚ) / ((2 : ℕ) : ℚ)) *
          (1/2)))).toNat ∧
    |((scaled_input_shape 2 2 4 4 (1/2)).1 : ℚ) -
        ((2 : ℕ) : ℚ) *
          (min (((4 : ℕ) : ℚ) / ((2 : ℕ) : ℚ)) (((4 : ℕ) : ℚ) / ((2 : ℕ) : ℚ)) *
            (1/2))| ≤ 1/2 ∧
    |((scaled_input_shape 2 2 4 4 (1/2)).2 : ℚ) -
        ((2 : ℕ) : ℚ) *
          (min (((4 : ℕ) : ℚ) / ((2 : ℕ) : ℚ)) (((4 : ℕ) : ℚ) / ((2 : ℕ) : ℚ)) *
            (1/2))| ≤ 1/2 :=
  C7_scaled_shape_formula 2 2 4 4 (1/2) one_half_pos.le

/-- Witness for C8: two runs on the 2x2 scenario input agree. -/
theorem C8_witness :
    scale_jittering_tensor_with_fixed_size_output img9 ann9 4 4 (1/2) 255 =
      scale_jittering_tensor_with_fixed_size_output img9 ann9 4 4 (1/2) 255 :=
  C8_deterministic img9 img9 ann9 ann9 4 4 4 4 (1/2) (1/2) 255 255 rfl rfl rfl
    rfl rfl rfl
